import Mathlib

/-!
Verification development for the yahoo-groups-backup thread-normalization
core.  The Python sources under `src/parser/` are shallowly embedded:
strings are `String` (lists of characters, as Python indexes by code
point), the regular expressions used by the code are hand-compiled to
character-list functions with the exact matching semantics of Python's
`re` module on the patterns in question, `None`-able values are
`Option`, and code that can raise is modelled as returning `none`.
-/

/-- Python's whitespace test for `str.strip` / `\s` (ASCII part; every
string examined in this development is ASCII). -/
def pySpace (c : Char) : Bool :=
  c = ' ' || c = '\t' || c = '\n' || c = '\r' || c = '\x0b' || c = '\x0c'

/-- `str.lstrip()` on a character list. -/
def wsDrop (l : List Char) : List Char := l.dropWhile pySpace

/-- `str.rstrip()` on a character list. -/
def wsDropRight (l : List Char) : List Char := (l.reverse.dropWhile pySpace).reverse

/-- `str.strip()` on a character list. -/
def pyStripL (l : List Char) : List Char := wsDropRight (wsDrop l)

/-- `str.strip()`. -/
def pyStrip (s : String) : String := String.mk (pyStripL s.data)

/-- `str.lstrip("_")` on a character list. -/
def underscoreDrop (l : List Char) : List Char := l.dropWhile (fun c => c = '_')

/-- `str.lower()` on one character (ASCII range, all inputs here are ASCII). -/
def asciiLowerChar (c : Char) : Char :=
  if 'A' ≤ c ∧ c ≤ 'Z' then Char.ofNat (c.toNat + 32) else c

/-- `str.lower()` on a character list. -/
def lowerL (l : List Char) : List Char := l.map asciiLowerChar

/-- `str.startswith(p)`: first argument the string, second the candidate
leading segment. -/
def startsWithL : List Char → List Char → Bool
  | _, [] => true
  | [], _ :: _ => false
  | c :: cs, p :: ps => c = p && startsWithL cs ps

/-- `(l.takeWhile p).length`: length of the leading run satisfying `p`. -/
def leadCount (p : Char → Bool) (l : List Char) : Nat := (l.takeWhile p).length

/-- `DEFAULT_SUBJECT` from `message_utils.py` / `message.py`. -/
def DEFAULT_SUBJECT : String := "(No subject)"

/-- Model of `decode_mime_header` (`message_utils.py`, and the identical
`BaseMessage._decode_mime_header` in `base_message.py`).  For a header
string with no MIME encoded-word marker, Python's
`email.header.decode_header` returns the whole header as one `str` part,
so the function reduces to: join/strip the single part, then strip
leading underscores, then strip again.  Every subject examined in this
development is such a plain (encoded-word-free) string. -/
def decode_mime_header (s : String) : String :=
  if s = "" then "" else String.mk (pyStripL (underscoreDrop (pyStripL s.data)))

/-! ### `BRACKET_REGEX = re.compile(r"^\s*\[.*?]\s*")`

`re.sub(BRACKET_REGEX, "", subject)` removes, at the start of the string
only (the pattern is anchored), a whitespace run, a `[`, the shortest
newline-free run up to a `]`, and the following whitespace run.  If no
`]` is reachable without crossing a newline (Python's `.` does not match
`\n`), there is no match and the string is unchanged. -/

/-- Scan for the first `]`; fail on a newline or the end of the list.
Returns the characters after the `]`. -/
def afterRBracket : List Char → Option (List Char)
  | [] => none
  | c :: rest =>
    if c = ']' then some rest
    else if c = '\n' then none
    else afterRBracket rest

/-- One application of `re.sub(BRACKET_REGEX, "", ·)`. -/
def bracketSubL (l : List Char) : List Char :=
  match wsDrop l with
  | c :: rest =>
    if c = '[' then
      match afterRBracket rest with
      | some after => wsDrop after
      | none => l
    else l
  | [] => l

/-- `re.match(BRACKET_REGEX, subject)` viewed as a Boolean. -/
def bracketMatchL (l : List Char) : Bool :=
  match wsDrop l with
  | c :: rest => c = '[' && (afterRBracket rest).isSome
  | [] => false

/-! ### Attachment-count suffix

`re.sub(r"\s*\[\s*\d+\s+Attachments?\s*]\s*$", "", subject, flags=re.IGNORECASE)`:
the pattern is anchored at the end, so it strips one trailing
`[N Attachment(s)]` tag together with the whitespace around it.  The
model parses the reversed character list. -/

/-- Case-insensitively drop a fixed word (given as a lowercase character
list) from the front of a list. -/
def dropWordCI : List Char → List Char → Option (List Char)
  | l, [] => some l
  | [], _ :: _ => none
  | c :: l, w :: ws => if asciiLowerChar c = w then dropWordCI l ws else none

/-- "attachment" reversed, for matching on a reversed list. -/
def ATTACHMENT_REV : List Char := "tnemhcatta".data

/-- Match the attachment-suffix pattern against the reversed character
list; on success return the reversed remainder (the kept head of the
string). -/
def attachmentSuffixRest (l : List Char) : Option (List Char) :=
  match wsDrop l with
  | c :: r2 =>
    if c = ']' then
      let r3 := wsDrop r2
      let r4 := match r3 with
                | s :: rest => if s = 's' ∨ s = 'S' then rest else r3
                | [] => r3
      match dropWordCI r4 ATTACHMENT_REV with
      | some r5 =>
        let r6 := wsDrop r5
        if r5.length = r6.length then none
        else
          let r7 := r6.dropWhile Char.isDigit
          if r6.length = r7.length then none
          else
            match wsDrop r7 with
            | b :: r9 => if b = '[' then some (wsDrop r9) else none
            | [] => none
      | none => none
    else none
  | [] => none

/-- The attachment-suffix substitution on a string. -/
def attachmentSub (s : String) : String :=
  match attachmentSuffixRest s.data.reverse with
  | some r => String.mk r.reverse
  | none => s

/-! ### The permissive "(was ...)" pattern of `base_message.py`

`re.search(r"\(\s*was\s+([^)]*)\)", subject, flags=re.IGNORECASE)`:
at the leftmost feasible position, a `(`, optional whitespace, `was`,
at least one whitespace character, then the capture runs to the next
`)` (which must exist).  The loop below scans candidate start positions
left to right, as `re.search` does. -/

def WAS_WORD : List Char := "was".data

/-- `[^)]*\)` starting here: the characters before the first `)`, or
`none` when no `)` remains. -/
def takeBeforeRParen : List Char → Option (List Char)
  | [] => none
  | c :: rest => if c = ')' then some [] else (takeBeforeRParen rest).map (c :: ·)

/-- Try the permissive was-pattern at this exact position; return the
capture group. -/
def matchWasAt (l : List Char) : Option (List Char) :=
  match l with
  | c :: rest =>
    if c = '(' then
      let r1 := wsDrop rest
      match dropWordCI r1 WAS_WORD with
      | some r2 =>
        let r3 := wsDrop r2
        if r2.length = r3.length then none
        else takeBeforeRParen r3
      | none => none
    else none
  | [] => none

/-- `re.search` scan for the permissive was-pattern. -/
def searchWasL : List Char → Option (List Char)
  | [] => none
  | c :: rest =>
    match matchWasAt (c :: rest) with
    | some g => some g
    | none => searchWasL rest

/-! ### The "(was ...)" pattern of `message_utils.py`

The source pattern is `r"\(\s * was\s+([^)] * )\)"` — with literal
spaces inside it.  Compiled by `re`, the pattern elements are:
`\(`, one `\s`, zero or more literal spaces, one literal space, `was`,
`\s+`, then the group `([^)] * )` = one non-`)` character followed by
zero or more spaces and one space, then `\)`.  So after the `(` it
needs one whitespace character followed by a run of at least one space
before `was` — `"(was ..."` never matches.  The `\s+` is greedy and
backtracks from its maximal run; for each retraction the group needs
one non-`)` character, a run of at least one space, and then the `)`
immediately after that run. -/

/-- The tail of the broken pattern after `was`, with the element `\s+`
having consumed exactly `m` characters of the leading whitespace run. -/
def brokenTailAt (t : List Char) (m : Nat) : Option (List Char) :=
  match t.drop m with
  | c :: u =>
    if c = ')' then none
    else
      let L := leadCount (fun x => x = ' ') u
      if L = 0 then none
      else
        match u.drop L with
        | ')' :: _ => some (c :: u.take L)
        | _ => none
  | [] => none

/-- Greedy backtracking over the `\s+` length, from `m` down to 1. -/
def brokenTailSearch (t : List Char) : Nat → Option (List Char)
  | 0 => none
  | m + 1 =>
    match brokenTailAt t (m + 1) with
    | some g => some g
    | none => brokenTailSearch t m

/-- Try the broken was-pattern at this exact position. -/
def matchWasBrokenAt (l : List Char) : Option (List Char) :=
  match l with
  | c :: c1 :: rest =>
    if c = '(' ∧ pySpace c1 then
      let k := leadCount (fun x => x = ' ') rest
      if k = 0 then none
      else
        match dropWordCI (rest.drop k) WAS_WORD with
        | some r2 => brokenTailSearch r2 (leadCount pySpace r2)
        | none => none
    else none
  | _ => none

/-- `re.search` scan for the broken was-pattern. -/
def searchWasBrokenL : List Char → Option (List Char)
  | [] => none
  | c :: rest =>
    match matchWasBrokenAt (c :: rest) with
    | some g => some g
    | none => searchWasBrokenL rest

/-! ### Reply/forward tag stripping -/

/-- `PREFIXES_TO_STRIP` from `constants.py` (a Python `set`; its three
members are mutually exclusive as leading segments of any string, so the
unspecified set-iteration order cannot change the result below). -/
def PREFIXES_TO_STRIP_CONSTANTS : List String :=
  ["re:", "fwd:", "[LETTERBOXINGTEXAS]"]

/-- `PREFIXES_TO_STRIP` from `message_utils.py`.  The last two entries
are regular-expression texts, but the code compares them with
`str.startswith`, i.e. literally. -/
def PREFIXES_TO_STRIP : List String :=
  ["re:", "fwd:", "fw:", "aw:", "vs:", "sv:", "re[\\d]*:", "fwd[\\d]*:"]

/-- One pass of the `for p in PREFIXES_TO_STRIP` loop: the first listed
tag that `lower_subject.startswith`, removed, with `lstrip` applied —
or `none` when no tag matches. -/
def stripOneTag (ps : List String) (s : String) : Option String :=
  match ps with
  | [] => none
  | p :: rest =>
    if startsWithL (lowerL s.data) (lowerL p.data) then
      some (String.mk (wsDrop (s.data.drop p.data.length)))
    else stripOneTag rest s

/-- The `while stripped:` loop shared by both normalizers.  Each Python
iteration applies the bracket substitution, then at most one tag
removal, and repeats while something was stripped or a bracketed tag is
still in front.  Every continuing iteration strictly shortens the
string, so `s.data.length + 1` units of fuel (supplied by the callers)
always suffice; fuel 0 is unreachable. -/
def normalizeLoopGo (ps : List String) : Nat → String → String
  | 0, s => s
  | Nat.succ fuel, s =>
    let s1 : String := String.mk (bracketSubL s.data)
    match stripOneTag ps s1 with
    | some s2 => normalizeLoopGo ps fuel s2
    | none => if bracketMatchL s1.data then normalizeLoopGo ps fuel s1 else s1

/-- `BaseMessage._normalize_subject` (`base_message.py`): MIME decode,
permissive "(was ...)" unwrap, attachment-suffix removal, the
bracket/tag loop over the `constants.py` tag set, final strip with the
`(No subject)` sentinel — but the empty input short-circuits to `""`. -/
def BaseMessage_normalize_subject (subject : String) : String :=
  if subject = "" then ""
  else
    let s0 := decode_mime_header subject
    let s1 := match searchWasL s0.data with
              | some g => pyStrip (String.mk g)
              | none => s0
    let s2 := attachmentSub s1
    let s3 := normalizeLoopGo PREFIXES_TO_STRIP_CONSTANTS (s2.data.length + 1) s2
    let s4 := pyStrip s3
    if s4 = "" then DEFAULT_SUBJECT else s4

/-- `normalize_subject` (`message_utils.py`): no MIME decode (the caller
decodes), the broken "(was ...)" pattern, attachment-suffix removal, the
bracket/tag loop over the `message_utils.py` tag list, final strip with
the `(No subject)` sentinel, and the empty input returns the sentinel
directly. -/
def normalize_subject (subject : String) : String :=
  if subject = "" then DEFAULT_SUBJECT
  else
    let s1 := match searchWasBrokenL subject.data with
              | some g => pyStrip (String.mk g)
              | none => subject
    let s2 := attachmentSub s1
    let s3 := normalizeLoopGo PREFIXES_TO_STRIP (s2.data.length + 1) s2
    let s4 := pyStrip s3
    if s4 = "" then DEFAULT_SUBJECT else s4

/-! ## The message data model

`BaseMessage` and its two concrete variants expose `id`, `subject`,
`normalized_subject`, `date` (a timezone-aware `datetime` or `None`) and
`html_content` (a string or `None`).  A timezone-aware instant is
modelled by its Unix-epoch second together with the fixed UTC offset of
its `tzinfo` (message timezones come from numeric header offsets /
`tzutc()`, whose offset does not depend on the date); Python compares
aware datetimes by instant. -/

structure TZDateTime where
  utcSeconds : Int
  tzOffsetSeconds : Int
  deriving DecidableEq

structure Msg where
  id : Nat
  subject : String
  normalizedSubject : String
  date : Option TZDateTime
  htmlContent : Option String
  deriving DecidableEq

/-- Python truthiness of an optional string (`None` and `""` are falsy). -/
def pyTruthyStr : Option String → Bool
  | none => false
  | some s => if s = "" then false else true

/-- Unix-epoch seconds of 1998-01-01T00:00:00 (the components used for
`datetime(1998, 1, 1, tzinfo=message.date.tzinfo)` in `utils.py`). -/
def CUTOFF_1998_EPOCH : Int := 883612800

/-- `_is_valid_message` (`utils.py`): when a date is present, reject it
if it precedes 1998-01-01 taken in the message's own timezone (that
cutoff denotes the instant `CUTOFF_1998_EPOCH - tzOffsetSeconds`);
otherwise the result is `bool(message.html_content and message.date)`. -/
def _is_valid_message (m : Msg) : Bool :=
  match m.date with
  | some d =>
    if d.utcSeconds < CUTOFF_1998_EPOCH - d.tzOffsetSeconds then false
    else pyTruthyStr m.htmlContent
  | none => false

/-- `JSONMessage._parse_date` (`json_message.py`):
`int(self._msg_data.get('postDate', 0))` followed by
`datetime.fromtimestamp(timestamp, tz=tz.tzutc())`.  A missing field
contributes the default `0`; the function always returns an (aware,
UTC) datetime, never `None`. -/
def JSONMessage_parse_date (postDate : Option Int) : Option TZDateTime :=
  some { utcSeconds := postDate.getD 0, tzOffsetSeconds := 0 }

/-- Python `a or b` on two optional strings (an empty string is falsy). -/
def pyOrStr (a b : Option String) : Option String :=
  match a with
  | some s => if s = "" then b else some s
  | none => b

/-- Outcome of the sender-name computation in `JSONMessage.__init__`
(`json_message.py` lines 32-33), which feeds
`msg_data.get('authorName') or msg_data.get('profile')` to
`html.unescape`.
`raises`: the `or` yielded `None` and `html.unescape(None)` raises
`TypeError` (construction fails; the per-record handlers catch only
`KeyError`/`ValueError`).
`name s`: the argument `s` contains no ampersand, and the stdlib's
`html.unescape` returns such strings unchanged
(`if '&' not in s: return s`), so the sender name is `s` itself.
`entityBearing s`: the argument contains an ampersand and the stdlib
rewrites it through its HTML entity table (e.g. `&amp;` → `&`); the
model records which input reaches that branch without reimplementing
the entity table, and no theorem below asserts its output. -/
inductive PySenderName where
  | raises
  | name (s : String)
  | entityBearing (s : String)
  deriving DecidableEq

def JSONMessage_sender_name (authorName profile : Option String) : PySenderName :=
  match pyOrStr authorName profile with
  | some s =>
    if s.data.contains '&' then PySenderName.entityBearing s
    else PySenderName.name s
  | none => PySenderName.raises

/-- `JSONMessage.sender_email` (`json_message.py`): always `""`. -/
def JSONMessage_sender_email : String := ""

/-! ## Sorting within a thread

Both processors run `sort`/`sorted` with
`key=lambda x: x.date if x.date else datetime.min`.  Python's sort is
stable and ascending, which for a total preorder on keys determines the
output uniquely, so it is modelled by a stable insertion sort.  (The
`datetime.min` placeholder for a dateless message is given a key below
the 1998 cutoff; it is unreachable after `_is_valid_message` filtering
— Python would in fact raise comparing the naive `datetime.min` against
aware dates.) -/

def dateKey (m : Msg) : Int :=
  match m.date with
  | some d => d.utcSeconds
  | none => -62135596800

def dateLe (a b : Msg) : Prop := dateKey a ≤ dateKey b

instance : DecidableRel dateLe := fun a b =>
  inferInstanceAs (Decidable (dateKey a ≤ dateKey b))

instance : IsTotal Msg dateLe := ⟨fun a b => Int.le_total (dateKey a) (dateKey b)⟩

instance : IsTrans Msg dateLe := ⟨fun _ _ _ h1 h2 => le_trans h1 h2⟩

/-- `messages.sort(key=lambda x: x.date ...)`: stable ascending sort. -/
def sortByDate (l : List Msg) : List Msg := l.insertionSort dateLe

/-! ## `process_json_directory` (json_processor.py)

The per-message loop of lines 145-167 groups surviving messages by
`normalized_subject` into a `dict` (which preserves insertion order —
modelled as an association list), and lines 176-177 sort each bucket.
Reading the files, parsing `msgId` and constructing `JSONMessage`
happen upstream of the modelled step; a record whose `msgId` is
falsy/invalid or whose construction raises is skipped before it reaches
the grouping. -/

def appendToThread : List (String × List Msg) → String → Msg → List (String × List Msg)
  | [], k, m => [(k, [m])]
  | (k', v) :: rest, k, m =>
    if k' = k then (k', v ++ [m]) :: rest
    else (k', v) :: appendToThread rest k m

/-- One iteration of the message loop: skip invalid messages, append
the rest to the bucket of their normalized subject. -/
def jsonBucketStep (ts : List (String × List Msg)) (m : Msg) : List (String × List Msg) :=
  if _is_valid_message m then appendToThread ts m.normalizedSubject m else ts

def process_json_directory (msgs : List Msg) : List (String × List Msg) :=
  (msgs.foldl jsonBucketStep []).map (fun kv => (kv.1, sortByDate kv.2))

/-- Association-list lookup (Python `threads[k]` / `k in threads`). -/
def threadLookup (k : String) : List (String × List Msg) → Option (List Msg)
  | [] => none
  | (k', v) :: rest => if k' = k then some v else threadLookup k rest

def threadKeys (ts : List (String × List Msg)) : List String := ts.map Prod.fst

/-! ## The thread-renaming pass of `process_email_json_directory`
(email_json_processor.py lines 173-192)

Input: the topic-keyed buckets in dict insertion order.  Each bucket is
date-sorted; a bucket whose first message has a truthy subject is keyed
by that subject, disambiguated against already-used keys by the
`while thread_name in updated_threads` counter loop; otherwise the key
is `f"Thread {topic_id}"`.  Assigning `updated_threads[name] = v`
replaces the value when the key already exists. -/

def freshNameGo (used : List String) (base : String) : Nat → Nat → String
  | c, 0 => base ++ " (" ++ toString c ++ ")"
  | c, Nat.succ fuel =>
    let cand := base ++ " (" ++ toString c ++ ")"
    if cand ∈ used then freshNameGo used base (c + 1) fuel else cand

/-- The `while thread_name in updated_threads:` counter loop.  The
candidate names for distinct counters are pairwise distinct strings, so
the Python loop stops within `used.length + 1` probes; that amount of
fuel is supplied and the fuel-0 fallback is unreachable. -/
def freshThreadName (used : List String) (base : String) : String :=
  if base ∈ used then freshNameGo used base 1 (used.length + 1) else base

/-- `updated_threads[k] = v` on the association list. -/
def dictInsert : List (String × List Msg) → String → List Msg → List (String × List Msg)
  | [], k, v => [(k, v)]
  | (k', v') :: rest, k, v =>
    if k' = k then (k', v) :: rest
    else (k', v') :: dictInsert rest k v

/-- The body of the `for topic_id, messages in threads.items()` loop. -/
def emailThreadStep (acc : List (String × List Msg)) (kv : String × List Msg) :
    List (String × List Msg) :=
  match sortByDate kv.2 with
  | [] => dictInsert acc ("Thread " ++ kv.1) (sortByDate kv.2)
  | m :: _ =>
    if m.subject = "" then dictInsert acc ("Thread " ++ kv.1) (sortByDate kv.2)
    else dictInsert acc (freshThreadName (threadKeys acc) m.subject) (sortByDate kv.2)

def update_thread_names (ts : List (String × List Msg)) : List (String × List Msg) :=
  ts.foldl emailThreadStep []

/-! ## `process_mbox` (__main__.py lines 114-136)

`Message(msg_id, msg)` either succeeds (carrying the message data) or
raises; a raising record is printed and skipped.  The
`msg_id += 1` sits inside the `try` after the successful append, so a
failing record does not advance the counter. -/

inductive MboxRecord where
  | ok (m : Msg)
  | bad
  deriving DecidableEq

def process_mbox_go : List MboxRecord → Nat → List (Nat × Msg)
  | [], _ => []
  | MboxRecord.ok m :: rest, i => (i, m) :: process_mbox_go rest (i + 1)
  | MboxRecord.bad :: rest, i => process_mbox_go rest i

def process_mbox (records : List MboxRecord) : List (Nat × Msg) :=
  process_mbox_go records 1

/-- The successfully parsed records, in order. -/
def okMessages : List MboxRecord → List Msg
  | [] => []
  | MboxRecord.ok m :: rest => m :: okMessages rest
  | MboxRecord.bad :: rest => okMessages rest

/-! ## Concrete inputs used by the claims -/

/-- Option-level merge used to describe the bucket contents. -/
def mergeBucket : Option (List Msg) → List Msg → Option (List Msg)
  | some v, f => some (v ++ f)
  | none, f => if f = [] then none else some f

/-- `s.data.all pySpace`: the subject consists of whitespace only. -/
def allPySpace (s : String) : Bool := s.data.all pySpace

def mA1 : Msg :=
  { id := 1, subject := "Alpha", normalizedSubject := "Alpha",
    date := some ⟨900000003, 0⟩, htmlContent := some "<p>hi</p>" }

def mB2 : Msg :=
  { id := 2, subject := "Beta", normalizedSubject := "Beta",
    date := some ⟨900000005, 0⟩, htmlContent := some "<p>hi</p>" }

def mA3 : Msg :=
  { id := 3, subject := "Alpha", normalizedSubject := "Alpha",
    date := some ⟨900000001, 0⟩, htmlContent := some "<p>hi</p>" }

def mA4 : Msg :=
  { id := 4, subject := "Alpha", normalizedSubject := "Alpha",
    date := some ⟨900000002, 0⟩, htmlContent := some "<p>hi</p>" }

def mB5 : Msg :=
  { id := 5, subject := "Beta", normalizedSubject := "Beta",
    date := some ⟨900000004, 0⟩, htmlContent := some "<p>hi</p>" }

/-- Five valid messages, three sharing normalized subject `"Alpha"` and
two sharing `"Beta"`, with dates out of order. -/
def exampleFiveMsgs : List Msg := [mA1, mB2, mA3, mA4, mB5]

/-- A message dated 1997-06-01T00:00:00Z with non-empty content. -/
def msg1997 : Msg :=
  { id := 1, subject := "A", normalizedSubject := "A",
    date := some ⟨865123200, 0⟩, htmlContent := some "<p>hi</p>" }

/-- A message with content but no date. -/
def msgNullDate : Msg :=
  { id := 2, subject := "A", normalizedSubject := "A",
    date := none, htmlContent := some "<p>hi</p>" }

/-- A dated (valid-era) message with an empty body. -/
def msgEmptyBody : Msg :=
  { id := 3, subject := "A", normalizedSubject := "A",
    date := some ⟨900000000, 0⟩, htmlContent := some "" }

/-- A JSON message whose `postDate` was missing/zero: its date is the
value `_parse_date` actually produces. -/
def msgEpochDate : Msg :=
  { id := 4, subject := "A", normalizedSubject := "A",
    date := JSONMessage_parse_date none, htmlContent := some "<p>hi</p>" }

/-- Topic buckets for the collision example: three one-message topics
whose (first) messages all carry the subject `"Foo"`. -/
def fooMsg (i : Nat) (t : Int) : Msg :=
  { id := i, subject := "Foo", normalizedSubject := "Foo",
    date := some ⟨t, 0⟩, htmlContent := some "x" }

def exampleCollision : List (String × List Msg) :=
  [("100", [fooMsg 1 900000001]), ("200", [fooMsg 2 900000002]),
   ("300", [fooMsg 3 900000003])]

/-- A message whose subject happens to be the literal `"Thread 200"`. -/
def msgT : Msg :=
  { id := 10, subject := "Thread 200", normalizedSubject := "Thread 200",
    date := some ⟨900000006, 0⟩, htmlContent := some "x" }

/-- A message with an empty subject (its topic takes the
`f"Thread {topic_id}"` fallback branch). -/
def msgE : Msg :=
  { id := 11, subject := "", normalizedSubject := "",
    date := some ⟨900000007, 0⟩, htmlContent := some "x" }

/-- Two topics whose threads both receive the name `"Thread 200"`: the
first from its first message's subject, the second from topic `"200"`'s
empty-subject fallback. -/
def exampleOverwrite : List (String × List Msg) :=
  [("100", [msgT]), ("200", [msgE])]

/-- The subject matrix of `src/tests/test_message.py`
(`test_normalize_subject`). -/
def testSubjects : List String :=
  ["Hello World", "[Test] Hello World", "[Test] [Important] Hello World",
   "  [Test]  [Important]  Hello World  ", "Re: Hello World", "Fwd: Hello World",
   "Re: Fwd: Hello World", "[Test] Re: Hello World", "Re: [Test] Hello World",
   "Throckmorton letterbox [1 Attachment]", "Meeting notes [2 Attachments]",
   "Project Update [3 Attachments]", "[IMPORTANT] Report [1 Attachment]",
   "Re: Project Status [2 Attachments] ", "", "   ",
   "Northeast Texas Fires (was Re: [letterboxingtexas] Re: Balloon Festival)",
   "Meeting (was Re: [group] Re: Project Update)",
   "Meeting ( was Re: [group] Re: Project Update)",
   "(was Re: [test] Re: Original Subject)",
   "Snake Phenomena (was [letterboxingtexas] Spring must be close...)",
   "(was [test] Original Subject)",
   "More on LBNA (was Re: [letterboxingtexas] Re: Search Discrepancy - Follow Up & Thanks)",
   "[Test]", "Re: ", "[1 Attachment]"]

/-! ## Helper lemmas for `process_mbox` -/

theorem process_mbox_go_map_snd (records : List MboxRecord) :
    ∀ i, (process_mbox_go records i).map Prod.snd = okMessages records := by
  induction records with
  | nil => intro i; rfl
  | cons r rest ih =>
    intro i
    cases r with
    | ok m => simp [process_mbox_go, okMessages, ih]
    | bad => simp [process_mbox_go, okMessages, ih]

theorem process_mbox_go_map_fst (records : List MboxRecord) :
    ∀ i, (process_mbox_go records i).map Prod.fst =
      List.range' i (okMessages records).length := by
  induction records with
  | nil => intro i; rfl
  | cons r rest ih =>
    intro i
    cases r with
    | ok m => simp [process_mbox_go, okMessages, ih, List.range'_succ]
    | bad => simp [process_mbox_go, okMessages, ih]

theorem process_mbox_go_skip_bad (pre post : List MboxRecord) :
    ∀ i, process_mbox_go (pre ++ MboxRecord.bad :: post) i =
      process_mbox_go (pre ++ post) i := by
  induction pre with
  | nil => intro i; rfl
  | cons r rest ih =>
    intro i
    cases r with
    | ok m => simp [process_mbox_go, ih]
    | bad => simp [process_mbox_go, ih]

/-! ## Claim theorems (first batch) -/

/-- C10 (counterexample): with the input `[ok mA1, bad, ok mB2]`, the
message after the failed record is assigned id 2, not the id 3 it would
have received had the bad record been accepted (as shown by the run
with the bad record replaced by an accepted one) — so the id counter
does not advance past a failed record. -/
theorem thm_C10_counterexample :
    process_mbox [MboxRecord.ok mA1, MboxRecord.bad, MboxRecord.ok mB2] =
      [(1, mA1), (2, mB2)]
    ∧ process_mbox [MboxRecord.ok mA1, MboxRecord.ok msgEmptyBody, MboxRecord.ok mB2] =
      [(1, mA1), (2, msgEmptyBody), (3, mB2)]
    ∧ (2 : Nat) ≠ 3 := by decide

/-- C10 (amended): a record that fails to parse is skipped and
processing continues — dropping a bad record from anywhere in the input
leaves the result unchanged, the successes are kept in order, and the
assigned ids are always the consecutive run 1, 2, … over the successes
only (the counter does not advance on a failed record). -/
theorem thm_C10_amended :
    ∀ records pre post : List MboxRecord,
      (process_mbox records).map Prod.snd = okMessages records
      ∧ (process_mbox records).map Prod.fst =
        List.range' 1 (okMessages records).length
      ∧ process_mbox (pre ++ MboxRecord.bad :: post) = process_mbox (pre ++ post) := by
  intro records pre post
  exact ⟨process_mbox_go_map_snd records 1, process_mbox_go_map_fst records 1,
    process_mbox_go_skip_bad pre post 1⟩

/-- C7 (counterexample): `_parse_date` maps a missing and an explicitly
zero `postDate` to the epoch instant 1970-01-01T00:00:00Z, not to an
absent date. -/
theorem thm_C7_counterexample :
    JSONMessage_parse_date none = some ⟨0, 0⟩
    ∧ JSONMessage_parse_date (some 0) = some ⟨0, 0⟩
    ∧ JSONMessage_parse_date none ≠ none := by decide

/-- C7 (amended): `_parse_date` always returns a date — the timestamp
taken as UTC, with missing `postDate` defaulting to 0, i.e. the Unix
epoch instant; such an epoch-dated message then fails the validity
filter's 1998 cutoff. -/
theorem thm_C7_amended :
    (∀ t : Int, JSONMessage_parse_date (some t) = some ⟨t, 0⟩)
    ∧ JSONMessage_parse_date none = some ⟨0, 0⟩
    ∧ _is_valid_message msgEpochDate = false :=
  ⟨fun _ => rfl, rfl, by decide⟩

/-- C9 (counterexample): when both `authorName` and `profile` are
absent, the sender-name computation does not yield the empty string —
`html.unescape(None)` raises `TypeError`, so construction fails. -/
theorem thm_C9_counterexample :
    JSONMessage_sender_name none none = PySenderName.raises
    ∧ JSONMessage_sender_name none none ≠ PySenderName.name "" := by decide

/-- C9 (amended): with both fields absent, constructing the message
raises (the per-record handlers catch only `KeyError`/`ValueError`);
when a field is present but empty the sender name is the empty string;
every ampersand-free non-empty `authorName` becomes the sender name
unchanged (ampersand-bearing names go through the stdlib entity table,
outside this model); and `sender_email` is the empty string for every
JSON message. -/
theorem thm_C9_amended :
    JSONMessage_sender_name none none = PySenderName.raises
    ∧ JSONMessage_sender_name none (some "") = PySenderName.name ""
    ∧ JSONMessage_sender_name (some "") (some "") = PySenderName.name ""
    ∧ (∀ s : String, s.data.contains '&' = false → s ≠ "" →
        JSONMessage_sender_name (some s) none = PySenderName.name s)
    ∧ JSONMessage_sender_email = "" := by
  refine ⟨by decide, by decide, by decide, ?_, rfl⟩
  intro s hamp hne
  have hmem : '&' ∉ s.data := by simpa using hamp
  simp [JSONMessage_sender_name, pyOrStr, hne, hmem]

/-- Witness for C9 at an ampersand-free sender name. -/
theorem thm_C9_witness :
    ("Alice" : String).data.contains '&' = false
    ∧ ("Alice" : String) ≠ ""
    ∧ JSONMessage_sender_name (some "Alice") none = PySenderName.name "Alice" :=
  ⟨by decide, by decide, thm_C9_amended.2.2.2.1 "Alice" (by decide) (by decide)⟩

/-- C4: at the spec's "(was ...)" example, the `BaseMessage` path
(`base_message.py`, used by `MboxMessage`) unwraps to
`"Balloon Festival"`, while the `message_utils.py` path (used by
`JSONMessage`) returns the subject unchanged: its pattern
`r"\(\s * was\s+([^)] * )\)"` contains literal spaces and cannot match
`"(was ..."`. -/
theorem thm_C4_was_unwrap :
    BaseMessage_normalize_subject
      "Northeast Texas Fires (was Re: [letterboxingtexas] Re: Balloon Festival)" =
      "Balloon Festival"
    ∧ normalize_subject
      "Northeast Texas Fires (was Re: [letterboxingtexas] Re: Balloon Festival)" =
      "Northeast Texas Fires (was Re: [letterboxingtexas] Re: Balloon Festival)"
    ∧ "Northeast Texas Fires (was Re: [letterboxingtexas] Re: Balloon Festival)" ≠
      ("Balloon Festival" : String) := by decide

/-- C3 (counterexample): neither normalizer is idempotent on its own
output — the `message_utils.py` one strips only one trailing attachment
tag per application, and the `base_message.py` one re-runs the
MIME-decode step, which strips a leading underscore the first pass left
behind. -/
theorem thm_C3_counterexample :
    normalize_subject (normalize_subject "X [1 Attachment] [2 Attachments]") ≠
      normalize_subject "X [1 Attachment] [2 Attachments]"
    ∧ BaseMessage_normalize_subject
        (BaseMessage_normalize_subject "Re: _foo") ≠
      BaseMessage_normalize_subject "Re: _foo" := by decide

/-- C3 (amended): idempotence fails in general (see the counterexample)
but holds for both normalizers on every subject of the repository's
normalization test matrix. -/
theorem thm_C3_amended :
    testSubjects.all (fun s =>
      decide (BaseMessage_normalize_subject (BaseMessage_normalize_subject s) =
        BaseMessage_normalize_subject s)
      && decide (normalize_subject (normalize_subject s) = normalize_subject s)) =
      true := by decide

/-- C5 (counterexample): `BaseMessage._normalize_subject` returns `""`,
not the `"(No subject)"` sentinel, for the empty subject (its
`if not subject: return ""` short-circuit). -/
theorem thm_C5_counterexample :
    BaseMessage_normalize_subject "" ≠ DEFAULT_SUBJECT := by decide

/-- C6 (counterexample): the numbered variants are dead literal entries
(`"re[\d]*:"` compared with `startswith`), so `"Re[2]: Hello"` and
`"Fwd[2]: Hello"` keep their numbered tags on the `message_utils.py`
path; and the `constants.py` set used by the `BaseMessage` path lacks
`fw:`/`aw:`/`vs:`/`sv:` entirely, so `"Fw: Hello"` is not stripped
there. -/
theorem thm_C6_counterexample :
    normalize_subject "Re[2]: Hello" = "Re[2]: Hello"
    ∧ normalize_subject "Fwd[2]: Hello" = "Fwd[2]: Hello"
    ∧ BaseMessage_normalize_subject "Fw: Hello" = "Fw: Hello"
    ∧ "Re[2]: Hello" ≠ ("Hello" : String)
    ∧ "Fw: Hello" ≠ ("Hello" : String) := by decide

/-- C2: the validity filter rejects a message iff its date is absent,
its content is absent or empty, or its date precedes the instant
"1998-01-01 00:00 at the message's own timezone offset"; it accepts the
message otherwise.  In particular a message dated 1997-06-01 with
content is rejected, a message with content but no date is rejected,
and a dated message with an empty body is rejected. -/
theorem thm_C2_validity_filter :
    (∀ m : Msg, _is_valid_message m = false ↔
      (m.date = none ∨ m.htmlContent = none ∨ m.htmlContent = some "" ∨
        ∃ d, m.date = some d ∧ d.utcSeconds < CUTOFF_1998_EPOCH - d.tzOffsetSeconds))
    ∧ _is_valid_message msg1997 = false
    ∧ _is_valid_message msgNullDate = false
    ∧ _is_valid_message msgEmptyBody = false := by
  refine ⟨?_, by decide, by decide, by decide⟩
  intro m
  cases hd : m.date with
  | none => simp [_is_valid_message, hd]
  | some d =>
    by_cases hlt : d.utcSeconds < CUTOFF_1998_EPOCH - d.tzOffsetSeconds
    · simp only [_is_valid_message, hd, if_pos hlt]
      constructor
      · intro _
        exact Or.inr (Or.inr (Or.inr ⟨d, rfl, hlt⟩))
      · intro _
        trivial
    · simp only [_is_valid_message, hd, if_neg hlt]
      cases hc : m.htmlContent with
      | none => simp [pyTruthyStr, hlt]
      | some b =>
        by_cases hb : b = ""
        · subst hb
          simp [pyTruthyStr]
        · simp only [pyTruthyStr, if_neg hb]
          constructor
          · intro hfalse
            cases hfalse
          · rintro (h1 | h2 | h3 | ⟨d', hd', hlt'⟩)
            · cases h1
            · cases h2
            · exact absurd (Option.some.injEq _ _ ▸ h3) hb
            · cases hd'
              exact absurd hlt' hlt

/-! ## Helper lemmas for the thread builders -/

theorem threadLookup_appendToThread (ts : List (String × List Msg)) (k k' : String) (m : Msg) :
    threadLookup k' (appendToThread ts k m) =
      if k' = k then some ((threadLookup k ts).getD [] ++ [m])
      else threadLookup k' ts := by
  induction ts with
  | nil =>
    by_cases h : k' = k
    · subst h; simp [appendToThread, threadLookup]
    · simp [appendToThread, threadLookup, h, Ne.symm h]
  | cons kv rest ih =>
    obtain ⟨k0, v0⟩ := kv
    by_cases h0 : k0 = k
    · subst h0
      by_cases h1 : k' = k0
      · subst h1; simp [appendToThread, threadLookup]
      · simp [appendToThread, threadLookup, h1, Ne.symm h1]
    · by_cases h1 : k0 = k'
      · subst h1
        simp [appendToThread, threadLookup, h0, Ne.symm h0, ih]
      · simp [appendToThread, threadLookup, h0, h1, ih]

theorem foldl_bucket_filter (msgs : List Msg) :
    ∀ ts, msgs.foldl jsonBucketStep ts =
      (msgs.filter (fun m => _is_valid_message m)).foldl
        (fun ts m => appendToThread ts m.normalizedSubject m) ts := by
  induction msgs with
  | nil => intro ts; rfl
  | cons m rest ih =>
    intro ts
    by_cases h : _is_valid_message m = true
    · simp [jsonBucketStep, h, List.filter_cons, ih]
    · simp [jsonBucketStep, h, List.filter_cons, ih]

theorem bucket_lookup (msgs : List Msg) :
    ∀ (ts : List (String × List Msg)) (k : String),
      threadLookup k
        (msgs.foldl (fun ts m => appendToThread ts m.normalizedSubject m) ts) =
      mergeBucket (threadLookup k ts)
        (msgs.filter (fun m => m.normalizedSubject = k)) := by
  induction msgs with
  | nil =>
    intro ts k
    cases h : threadLookup k ts <;> simp [mergeBucket, h]
  | cons m rest ih =>
    intro ts k
    rw [List.foldl_cons, ih, threadLookup_appendToThread]
    by_cases hk : m.normalizedSubject = k
    · subst hk
      rw [if_pos rfl]
      rw [List.filter_cons_of_pos (by simp)]
      cases h0 : threadLookup m.normalizedSubject ts with
      | some v => simp [mergeBucket, h0]
      | none => simp [mergeBucket, h0]
    · have : ¬(k = m.normalizedSubject) := fun h => hk h.symm
      rw [if_neg this]
      rw [List.filter_cons_of_neg (by simp [hk])]

theorem threadLookup_isSome_iff_mem (k : String) (ts : List (String × List Msg)) :
    (threadLookup k ts).isSome = true ↔ k ∈ threadKeys ts := by
  induction ts with
  | nil => simp [threadLookup, threadKeys]
  | cons kv rest ih =>
    obtain ⟨k0, v0⟩ := kv
    by_cases h : k0 = k
    · subst h; simp [threadLookup, threadKeys]
    · simp [threadLookup, threadKeys, h, Ne.symm h, ih]

theorem threadKeys_appendToThread (ts : List (String × List Msg)) (k : String) (m : Msg) :
    threadKeys (appendToThread ts k m) =
      if k ∈ threadKeys ts then threadKeys ts else threadKeys ts ++ [k] := by
  induction ts with
  | nil => simp [appendToThread, threadKeys]
  | cons kv rest ih =>
    obtain ⟨k0, v0⟩ := kv
    by_cases h : k0 = k
    · subst h; simp [appendToThread, threadKeys]
    · have e1 : appendToThread ((k0, v0) :: rest) k m =
          (k0, v0) :: appendToThread rest k m := by
        simp [appendToThread, h]
      have e2 : threadKeys ((k0, v0) :: appendToThread rest k m) =
          k0 :: threadKeys (appendToThread rest k m) := rfl
      have e3 : threadKeys ((k0, v0) :: rest) = k0 :: threadKeys rest := rfl
      rw [e1, e2, ih, e3]
      by_cases hmem : k ∈ threadKeys rest
      · rw [if_pos hmem, if_pos (List.mem_cons.mpr (Or.inr hmem))]
      · have hnotin : k ∉ k0 :: threadKeys rest := by
          simp [hmem]
          exact fun he => h he.symm
        rw [if_neg hmem, if_neg hnotin]
        rfl

theorem threadKeys_nodup_foldl (msgs : List Msg) :
    ∀ ts : List (String × List Msg), (threadKeys ts).Nodup →
      (threadKeys
        (msgs.foldl (fun ts m => appendToThread ts m.normalizedSubject m) ts)).Nodup := by
  induction msgs with
  | nil => intro ts h; exact h
  | cons m rest ih =>
    intro ts h
    rw [List.foldl_cons]
    apply ih
    rw [threadKeys_appendToThread]
    by_cases hmem : m.normalizedSubject ∈ threadKeys ts
    · simpa [hmem] using h
    · simp [hmem, List.nodup_append, h]

theorem threadLookup_of_mem (ts : List (String × List Msg)) (kv : String × List Msg)
    (hmem : kv ∈ ts) (hnd : (threadKeys ts).Nodup) :
    threadLookup kv.1 ts = some kv.2 := by
  induction ts with
  | nil => cases hmem
  | cons kv0 rest ih =>
    obtain ⟨k0, v0⟩ := kv0
    rcases List.mem_cons.mp hmem with h | h
    · subst h; simp [threadLookup]
    · have hk : k0 ≠ kv.1 := by
        intro he
        subst he
        have : kv.1 ∈ threadKeys rest := by
          exact List.mem_map.mpr ⟨kv, h, rfl⟩
        simp [threadKeys] at hnd
        exact hnd.1 kv.2 (by simpa using h)
      simp only [threadLookup, if_neg hk]
      exact ih h (by simp [threadKeys] at hnd ⊢; exact hnd.2)

theorem threadLookup_map_sort (k : String) (ts : List (String × List Msg)) :
    threadLookup k (ts.map (fun kv => (kv.1, sortByDate kv.2))) =
      (threadLookup k ts).map sortByDate := by
  induction ts with
  | nil => simp [threadLookup]
  | cons kv rest ih =>
    obtain ⟨k0, v0⟩ := kv
    by_cases h : k0 = k
    · subst h; simp [threadLookup]
    · simp [threadLookup, h, ih]

theorem threadKeys_map_sort (ts : List (String × List Msg)) :
    threadKeys (ts.map (fun kv => (kv.1, sortByDate kv.2))) = threadKeys ts := by
  simp [threadKeys, List.map_map]

/-- C1: on a sequence of valid messages, `process_json_directory`
buckets messages by normalized subject — the bucket of key `k` is
exactly the input-order sublist of messages with that normalized
subject, stably sorted ascending by date — bucket keys are distinct,
every bucket is ascending by date and a permutation of its input-order
sublist; and on the concrete five-message input (three `"Alpha"`, two
`"Beta"`, dates shuffled) it yields exactly the two buckets of sizes 3
and 2, each sorted ascending by date. -/
theorem thm_C1_thread_builder (msgs : List Msg)
    (hv : ∀ m ∈ msgs, _is_valid_message m = true) :
    (∀ k, threadLookup k (process_json_directory msgs) =
      if msgs.filter (fun m => m.normalizedSubject = k) = [] then none
      else some (sortByDate (msgs.filter (fun m => m.normalizedSubject = k))))
    ∧ (threadKeys (process_json_directory msgs)).Nodup
    ∧ (∀ kv ∈ process_json_directory msgs, List.Sorted dateLe kv.2)
    ∧ (∀ kv ∈ process_json_directory msgs,
        kv.2.Perm (msgs.filter (fun m => m.normalizedSubject = kv.1)))
    ∧ process_json_directory exampleFiveMsgs =
      [("Alpha", [mA3, mA4, mA1]), ("Beta", [mB5, mB2])] := by
  have hfilter : msgs.filter (fun m => _is_valid_message m) = msgs :=
    List.filter_eq_self.mpr hv
  have hfold : msgs.foldl jsonBucketStep [] =
      msgs.foldl (fun ts m => appendToThread ts m.normalizedSubject m) [] := by
    rw [foldl_bucket_filter, hfilter]
  have hlookup : ∀ k, threadLookup k (process_json_directory msgs) =
      if msgs.filter (fun m => m.normalizedSubject = k) = [] then none
      else some (sortByDate (msgs.filter (fun m => m.normalizedSubject = k))) := by
    intro k
    unfold process_json_directory
    rw [hfold, threadLookup_map_sort, bucket_lookup]
    cases hf : msgs.filter (fun m => m.normalizedSubject = k) with
    | nil => simp [mergeBucket, threadLookup, hf]
    | cons a l => simp [mergeBucket, threadLookup, hf]
  have hnodup : (threadKeys (process_json_directory msgs)).Nodup := by
    unfold process_json_directory
    rw [threadKeys_map_sort, hfold]
    exact threadKeys_nodup_foldl msgs [] (by simp [threadKeys])
  refine ⟨hlookup, hnodup, ?_, ?_, by decide⟩
  · intro kv hkv
    unfold process_json_directory at hkv
    rcases List.mem_map.mp hkv with ⟨kv0, _, rfl⟩
    exact List.sorted_insertionSort dateLe kv0.2
  · intro kv hkv
    have hl := threadLookup_of_mem _ kv hkv hnodup
    rw [hlookup kv.1] at hl
    by_cases hf : msgs.filter (fun m => m.normalizedSubject = kv.1) = []
    · rw [if_pos hf] at hl; cases hl
    · rw [if_neg hf] at hl
      have heq : kv.2 = sortByDate (msgs.filter (fun m => m.normalizedSubject = kv.1)) :=
        (Option.some.inj hl).symm
      rw [heq]
      exact List.perm_insertionSort dateLe _

/-- Witness for C1 at the concrete five-message input. -/
theorem thm_C1_witness :
    (∀ m ∈ exampleFiveMsgs, _is_valid_message m = true)
    ∧ ((∀ k, threadLookup k (process_json_directory exampleFiveMsgs) =
        if exampleFiveMsgs.filter (fun m => m.normalizedSubject = k) = [] then none
        else some (sortByDate
          (exampleFiveMsgs.filter (fun m => m.normalizedSubject = k))))
      ∧ (threadKeys (process_json_directory exampleFiveMsgs)).Nodup
      ∧ (∀ kv ∈ process_json_directory exampleFiveMsgs, List.Sorted dateLe kv.2)
      ∧ (∀ kv ∈ process_json_directory exampleFiveMsgs,
          kv.2.Perm (exampleFiveMsgs.filter (fun m => m.normalizedSubject = kv.1)))
      ∧ process_json_directory exampleFiveMsgs =
        [("Alpha", [mA3, mA4, mA1]), ("Beta", [mB5, mB2])]) :=
  ⟨by decide, thm_C1_thread_builder exampleFiveMsgs (by decide)⟩

theorem threadKeys_dictInsert (ts : List (String × List Msg)) (k : String) (v : List Msg) :
    threadKeys (dictInsert ts k v) =
      if k ∈ threadKeys ts then threadKeys ts else threadKeys ts ++ [k] := by
  induction ts with
  | nil => simp [dictInsert, threadKeys]
  | cons kv rest ih =>
    obtain ⟨k0, v0⟩ := kv
    by_cases h : k0 = k
    · subst h; simp [dictInsert, threadKeys]
    · have e1 : dictInsert ((k0, v0) :: rest) k v = (k0, v0) :: dictInsert rest k v := by
        simp [dictInsert, h]
      have e2 : threadKeys ((k0, v0) :: dictInsert rest k v) =
          k0 :: threadKeys (dictInsert rest k v) := rfl
      have e3 : threadKeys ((k0, v0) :: rest) = k0 :: threadKeys rest := rfl
      rw [e1, e2, ih, e3]
      by_cases hmem : k ∈ threadKeys rest
      · rw [if_pos hmem, if_pos (List.mem_cons.mpr (Or.inr hmem))]
      · have hnotin : k ∉ k0 :: threadKeys rest := by
          simp [hmem]
          exact fun he => h he.symm
        rw [if_neg hmem, if_neg hnotin]
        rfl

theorem threadKeys_dictInsert_nodup (ts : List (String × List Msg)) (k : String)
    (v : List Msg) (h : (threadKeys ts).Nodup) :
    (threadKeys (dictInsert ts k v)).Nodup := by
  rw [threadKeys_dictInsert]
  by_cases hmem : k ∈ threadKeys ts
  · simpa [hmem] using h
  · simp [hmem, List.nodup_append, h]

theorem mem_dictInsert (ts : List (String × List Msg)) (k : String) (v : List Msg)
    (kv : String × List Msg) (h : kv ∈ dictInsert ts k v) : kv.2 = v ∨ kv ∈ ts := by
  induction ts with
  | nil =>
    simp [dictInsert] at h
    subst h
    exact Or.inl rfl
  | cons kv0 rest ih =>
    obtain ⟨k0, v0⟩ := kv0
    by_cases h0 : k0 = k
    · subst h0
      simp [dictInsert] at h
      rcases h with h | h
      · subst h; exact Or.inl rfl
      · exact Or.inr (List.mem_cons.mpr (Or.inr h))
    · simp [dictInsert, h0] at h
      rcases h with h | h
      · subst h; exact Or.inr (List.mem_cons.mpr (Or.inl rfl))
      · rcases ih h with h1 | h1
        · exact Or.inl h1
        · exact Or.inr (List.mem_cons.mpr (Or.inr h1))

theorem sortByDate_ne_nil (l : List Msg) (h : l ≠ []) : sortByDate l ≠ [] := by
  intro hs
  apply h
  have := (List.perm_insertionSort dateLe l).length_eq
  rw [show sortByDate l = List.insertionSort dateLe l from rfl] at hs
  rw [hs] at this
  exact List.length_eq_zero.mp this.symm

theorem update_thread_names_invariant (ts : List (String × List Msg)) :
    ∀ acc : List (String × List Msg),
      (∀ kv ∈ ts, kv.2 ≠ []) → (∀ kv ∈ acc, kv.2 ≠ []) → (threadKeys acc).Nodup →
      (∀ kv ∈ ts.foldl emailThreadStep acc, kv.2 ≠ [])
      ∧ (threadKeys (ts.foldl emailThreadStep acc)).Nodup := by
  induction ts with
  | nil => intro acc _ h2 h3; exact ⟨h2, h3⟩
  | cons kv rest ih =>
    intro acc h1 h2 h3
    rw [List.foldl_cons]
    have hne : kv.2 ≠ [] := h1 kv (List.mem_cons_self kv rest)
    have hsorted : sortByDate kv.2 ≠ [] := sortByDate_ne_nil kv.2 hne
    have hstep : ∀ name, (∀ kv' ∈ dictInsert acc name (sortByDate kv.2), kv'.2 ≠ [])
        ∧ (threadKeys (dictInsert acc name (sortByDate kv.2))).Nodup := by
      intro name
      constructor
      · intro kv' hkv'
        rcases mem_dictInsert acc name (sortByDate kv.2) kv' hkv' with h | h
        · rw [h]; exact hsorted
        · exact h2 kv' h
      · exact threadKeys_dictInsert_nodup acc name (sortByDate kv.2) h3
    have hbody : ∃ name, emailThreadStep acc kv = dictInsert acc name (sortByDate kv.2) := by
      cases hs : sortByDate kv.2 with
      | nil => exact absurd hs hsorted
      | cons m tl =>
        by_cases hsub : m.subject = ""
        · exact ⟨"Thread " ++ kv.1, by simp [emailThreadStep, hs, hsub]⟩
        · exact ⟨freshThreadName (threadKeys acc) m.subject, by simp [emailThreadStep, hs, hsub]⟩
    obtain ⟨name, hbody⟩ := hbody
    rw [hbody]
    exact ih (dictInsert acc name (sortByDate kv.2))
      (fun kv' h => h1 kv' (List.mem_cons_of_mem _ h))
      (hstep name).1 (hstep name).2

/-- C8 (counterexample): the `f"Thread {topic_id}"` fallback branch has
no uniqueness guard — topic `"100"` produces a thread named
`"Thread 200"` (its first message's subject) and topic `"200"`'s
empty-subject fallback then assigns the identical key, overwriting the
earlier thread via dict assignment instead of receiving the `" (1)"`
suffix the claim requires for every later colliding thread. -/
theorem thm_C8_counterexample :
    update_thread_names exampleOverwrite = [("Thread 200", [msgE])]
    ∧ threadKeys (update_thread_names exampleOverwrite) ≠
      ["Thread 200", "Thread 200 (1)"] := by decide

/-- C8 (amended): in the renamed thread map every thread is non-empty
and the thread keys are pairwise distinct; a subject-titled thread
whose name is not yet in use keeps the un-suffixed name, and on three
distinct topics whose first messages all carry the name `"Foo"` the
later subject-titled colliders get `" (1)"` and `" (2)"` in encounter
order — but a later thread that reaches the `f"Thread {topic_id}"`
fallback with an already-used name silently overwrites the earlier
thread instead of being suffixed. -/
theorem thm_C8_thread_keys_unique (ts : List (String × List Msg))
    (h : ∀ kv ∈ ts, kv.2 ≠ []) :
    (∀ kv ∈ update_thread_names ts, kv.2 ≠ [])
    ∧ (threadKeys (update_thread_names ts)).Nodup
    ∧ (∀ (used : List String) (b : String), b ∉ used → freshThreadName used b = b)
    ∧ update_thread_names exampleCollision =
      [("Foo", [fooMsg 1 900000001]), ("Foo (1)", [fooMsg 2 900000002]),
       ("Foo (2)", [fooMsg 3 900000003])]
    ∧ update_thread_names exampleOverwrite = [("Thread 200", [msgE])] := by
  have hmain := update_thread_names_invariant ts [] h (by intro kv hkv; cases hkv)
    (by simp [threadKeys])
  refine ⟨hmain.1, hmain.2, ?_, by decide, by decide⟩
  intro used b hb
  unfold freshThreadName
  rw [if_neg hb]

/-- Witness for C8 at the collision example. -/
theorem thm_C8_witness :
    (∀ kv ∈ exampleCollision, kv.2 ≠ [])
    ∧ ((∀ kv ∈ update_thread_names exampleCollision, kv.2 ≠ [])
      ∧ (threadKeys (update_thread_names exampleCollision)).Nodup
      ∧ (∀ (used : List String) (b : String), b ∉ used → freshThreadName used b = b)
      ∧ update_thread_names exampleCollision =
        [("Foo", [fooMsg 1 900000001]), ("Foo (1)", [fooMsg 2 900000002]),
         ("Foo (2)", [fooMsg 3 900000003])]
      ∧ update_thread_names exampleOverwrite = [("Thread 200", [msgE])]) :=
  ⟨by decide, thm_C8_thread_keys_unique exampleCollision (by decide)⟩

/-! ## Whitespace-only subjects -/

theorem mk_data_eq (s : String) : String.mk s.data = s := rfl

theorem wsDrop_all_ws (l : List Char) (h : l.all pySpace = true) : wsDrop l = [] := by
  rw [wsDrop, List.dropWhile_eq_nil_iff]
  intro x hx
  exact List.all_eq_true.mp h x hx

theorem pyStripL_all_ws (l : List Char) (h : l.all pySpace = true) : pyStripL l = [] := by
  rw [pyStripL, wsDrop_all_ws l h]
  rfl

theorem asciiLowerChar_ws (c : Char) (h : pySpace c = true) : asciiLowerChar c = c := by
  simp [pySpace] at h
  rcases h with (((((h | h) | h) | h) | h) | h) <;> subst h <;> decide

theorem pySpace_not_lparen (c : Char) (h : pySpace c = true) : ¬(c = '(') := by
  intro he
  subst he
  simp [pySpace] at h

theorem searchWasL_all_ws (l : List Char) (h : l.all pySpace = true) :
    searchWasL l = none := by
  induction l with
  | nil => rfl
  | cons c rest ih =>
    simp only [List.all_cons, Bool.and_eq_true] at h
    obtain ⟨hc, hrest⟩ := h
    simp [searchWasL, matchWasAt, pySpace_not_lparen c hc, ih hrest]

theorem searchWasBrokenL_all_ws (l : List Char) (h : l.all pySpace = true) :
    searchWasBrokenL l = none := by
  induction l with
  | nil => rfl
  | cons c rest ih =>
    simp only [List.all_cons, Bool.and_eq_true] at h
    obtain ⟨hc, hrest⟩ := h
    cases rest with
    | nil => rfl
    | cons c1 rest' =>
      have hm : matchWasBrokenAt (c :: c1 :: rest') = none := by
        simp [matchWasBrokenAt, pySpace_not_lparen c hc]
      rw [searchWasBrokenL, hm]
      exact ih hrest

theorem attachmentSub_all_ws (s : String) (h : allPySpace s = true) :
    attachmentSub s = s := by
  have hrev : s.data.reverse.all pySpace = true := by
    rw [List.all_eq_true]
    intro x hx
    exact List.all_eq_true.mp h x (List.mem_reverse.mp hx)
  have : attachmentSuffixRest s.data.reverse = none := by
    simp [attachmentSuffixRest, wsDrop_all_ws _ hrev]
  simp [attachmentSub, this]

theorem bracketSubL_all_ws (l : List Char) (h : l.all pySpace = true) :
    bracketSubL l = l := by
  simp [bracketSubL, wsDrop_all_ws l h]

theorem bracketMatchL_all_ws (l : List Char) (h : l.all pySpace = true) :
    bracketMatchL l = false := by
  simp [bracketMatchL, wsDrop_all_ws l h]

theorem startsWithL_ws_head (c : Char) (cs : List Char) (p : Char) (ps : List Char)
    (hc : pySpace c = true) (hp : pySpace p = false) :
    startsWithL (c :: cs) (p :: ps) = false := by
  by_cases hcp : c = p
  · subst hcp
    rw [hc] at hp
    cases hp
  · simp [startsWithL, hcp]

theorem stripOneTag_all_ws (ps : List String) (s : String)
    (hps : ∀ p ∈ ps, ∃ d ds, lowerL p.data = d :: ds ∧ pySpace d = false)
    (h : allPySpace s = true) : stripOneTag ps s = none := by
  induction ps with
  | nil => rfl
  | cons p rest ih =>
    obtain ⟨d, ds, hpd, hdws⟩ := hps p (List.mem_cons_self p rest)
    have hfalse : startsWithL (lowerL s.data) (lowerL p.data) = false := by
      rw [hpd]
      cases hsd : s.data with
      | nil => rfl
      | cons c cs =>
        have hc : pySpace c = true := by
          have h' : s.data.all pySpace = true := h
          rw [hsd] at h'
          simp only [List.all_cons, Bool.and_eq_true] at h'
          exact h'.1
        show startsWithL (lowerL (c :: cs)) (d :: ds) = false
        rw [show lowerL (c :: cs) = asciiLowerChar c :: lowerL cs from rfl,
          asciiLowerChar_ws c hc]
        exact startsWithL_ws_head c (lowerL cs) d ds hc hdws
    simp [stripOneTag, hfalse, ih (fun p hp => hps p (List.mem_cons_of_mem _ hp))]

theorem prefixHeads_utils :
    ∀ p ∈ PREFIXES_TO_STRIP, ∃ d ds, lowerL p.data = d :: ds ∧ pySpace d = false := by
  intro p hp
  fin_cases hp <;> exact ⟨_, _, rfl, by decide⟩

theorem prefixHeads_constants :
    ∀ p ∈ PREFIXES_TO_STRIP_CONSTANTS,
      ∃ d ds, lowerL p.data = d :: ds ∧ pySpace d = false := by
  intro p hp
  fin_cases hp <;> exact ⟨_, _, rfl, by decide⟩

theorem normalizeLoopGo_all_ws (ps : List String) (fuel : Nat) (s : String)
    (hps : ∀ p ∈ ps, ∃ d ds, lowerL p.data = d :: ds ∧ pySpace d = false)
    (h : allPySpace s = true) :
    normalizeLoopGo ps (fuel + 1) s = s := by
  have hb : bracketSubL s.data = s.data := bracketSubL_all_ws _ h
  simp [normalizeLoopGo, hb, mk_data_eq, stripOneTag_all_ws ps s hps h,
    bracketMatchL_all_ws _ h]

/-- C5 (amended): `message_utils.normalize_subject` returns the
`"(No subject)"` sentinel for the empty subject and for every
whitespace-only subject; `BaseMessage._normalize_subject` returns the
sentinel for every nonempty whitespace-only subject but returns `""`
for the empty subject. -/
theorem thm_C5_amended :
    normalize_subject "" = DEFAULT_SUBJECT
    ∧ BaseMessage_normalize_subject "" = ""
    ∧ (∀ s : String, allPySpace s = true → s ≠ "" →
        normalize_subject s = DEFAULT_SUBJECT
        ∧ BaseMessage_normalize_subject s = DEFAULT_SUBJECT) := by
  refine ⟨by decide, by decide, ?_⟩
  intro s hws hne
  have hdata : s.data.all pySpace = true := hws
  have hstrip : pyStrip s = "" := by
    rw [pyStrip, pyStripL_all_ws s.data hdata]
  constructor
  · unfold normalize_subject
    rw [if_neg hne]
    simp only [searchWasBrokenL_all_ws s.data hdata, attachmentSub_all_ws s hws,
      normalizeLoopGo_all_ws PREFIXES_TO_STRIP s.data.length s prefixHeads_utils hws,
      hstrip, if_pos]
  · have hdec : decode_mime_header s = "" := by
      rw [decode_mime_header, if_neg hne, pyStripL_all_ws s.data hdata]
      rfl
    unfold BaseMessage_normalize_subject
    rw [if_neg hne, hdec]
    decide

/-- Witness for C5 at the whitespace-only subject. -/
theorem thm_C5_witness :
    allPySpace "   " = true ∧ ("   " : String) ≠ ""
    ∧ (normalize_subject "   " = DEFAULT_SUBJECT
      ∧ BaseMessage_normalize_subject "   " = DEFAULT_SUBJECT) :=
  ⟨by decide, by decide, thm_C5_amended.2.2 "   " (by decide) (by decide)⟩

/-! ## Per-tag behaviour of the strip loop -/

theorem startsWithL_three (L : List Char) (a b c : Char)
    (h : startsWithL L [a, b, c] = true) : ∃ t, L = a :: b :: c :: t := by
  cases L with
  | nil => simp [startsWithL] at h
  | cons x xs =>
    cases xs with
    | nil => simp [startsWithL] at h
    | cons y ys =>
      cases ys with
      | nil => simp [startsWithL] at h
      | cons z t =>
        simp [startsWithL] at h
        obtain ⟨h1, h2, h3⟩ := h
        subst h1; subst h2; subst h3
        exact ⟨t, rfl⟩

theorem startsWithL_four (L : List Char) (a b c d : Char)
    (h : startsWithL L [a, b, c, d] = true) : ∃ t, L = a :: b :: c :: d :: t := by
  cases L with
  | nil => simp [startsWithL] at h
  | cons x xs =>
    cases xs with
    | nil => simp [startsWithL] at h
    | cons y ys =>
      cases ys with
      | nil => simp [startsWithL] at h
      | cons z zs =>
        cases zs with
        | nil => simp [startsWithL] at h
        | cons w t =>
          simp [startsWithL] at h
          obtain ⟨h1, h2, h3, h4⟩ := h
          subst h1; subst h2; subst h3; subst h4
          exact ⟨t, rfl⟩

theorem stripOneTag_utils_re (s : String)
    (h : startsWithL (lowerL s.data) (("re:" : String).data) = true) :
    stripOneTag PREFIXES_TO_STRIP s = some (String.mk (wsDrop (s.data.drop 3))) := by
  have h1 : startsWithL (lowerL s.data) (lowerL (("re:" : String).data)) = true := h
  simp [stripOneTag, h1]

theorem stripOneTag_utils_fwd (s : String)
    (h : startsWithL (lowerL s.data) (("fwd:" : String).data) = true) :
    stripOneTag PREFIXES_TO_STRIP s = some (String.mk (wsDrop (s.data.drop 4))) := by
  obtain ⟨t, ht⟩ := startsWithL_four (lowerL s.data) 'f' 'w' 'd' ':' h
  have h1 : startsWithL (lowerL s.data) (lowerL (("re:" : String).data)) = false := by
    rw [ht]; rfl
  have h2 : startsWithL (lowerL s.data) (lowerL (("fwd:" : String).data)) = true := h
  simp [stripOneTag, h1, h2]

theorem stripOneTag_utils_fw (s : String)
    (h : startsWithL (lowerL s.data) (("fw:" : String).data) = true) :
    stripOneTag PREFIXES_TO_STRIP s = some (String.mk (wsDrop (s.data.drop 3))) := by
  obtain ⟨t, ht⟩ := startsWithL_three (lowerL s.data) 'f' 'w' ':' h
  have h1 : startsWithL (lowerL s.data) (lowerL (("re:" : String).data)) = false := by
    rw [ht]; rfl
  have h2 : startsWithL (lowerL s.data) (lowerL (("fwd:" : String).data)) = false := by
    rw [ht]; rfl
  have h3 : startsWithL (lowerL s.data) (lowerL (("fw:" : String).data)) = true := h
  simp [stripOneTag, h1, h2, h3]

theorem stripOneTag_utils_aw (s : String)
    (h : startsWithL (lowerL s.data) (("aw:" : String).data) = true) :
    stripOneTag PREFIXES_TO_STRIP s = some (String.mk (wsDrop (s.data.drop 3))) := by
  obtain ⟨t, ht⟩ := startsWithL_three (lowerL s.data) 'a' 'w' ':' h
  have h1 : startsWithL (lowerL s.data) (lowerL (("re:" : String).data)) = false := by
    rw [ht]; rfl
  have h2 : startsWithL (lowerL s.data) (lowerL (("fwd:" : String).data)) = false := by
    rw [ht]; rfl
  have h3 : startsWithL (lowerL s.data) (lowerL (("fw:" : String).data)) = false := by
    rw [ht]; rfl
  have h4 : startsWithL (lowerL s.data) (lowerL (("aw:" : String).data)) = true := h
  simp [stripOneTag, h1, h2, h3, h4]

theorem stripOneTag_utils_vs (s : String)
    (h : startsWithL (lowerL s.data) (("vs:" : String).data) = true) :
    stripOneTag PREFIXES_TO_STRIP s = some (String.mk (wsDrop (s.data.drop 3))) := by
  obtain ⟨t, ht⟩ := startsWithL_three (lowerL s.data) 'v' 's' ':' h
  have h1 : startsWithL (lowerL s.data) (lowerL (("re:" : String).data)) = false := by
    rw [ht]; rfl
  have h2 : startsWithL (lowerL s.data) (lowerL (("fwd:" : String).data)) = false := by
    rw [ht]; rfl
  have h3 : startsWithL (lowerL s.data) (lowerL (("fw:" : String).data)) = false := by
    rw [ht]; rfl
  have h4 : startsWithL (lowerL s.data) (lowerL (("aw:" : String).data)) = false := by
    rw [ht]; rfl
  have h5 : startsWithL (lowerL s.data) (lowerL (("vs:" : String).data)) = true := h
  simp [stripOneTag, h1, h2, h3, h4, h5]

theorem stripOneTag_utils_sv (s : String)
    (h : startsWithL (lowerL s.data) (("sv:" : String).data) = true) :
    stripOneTag PREFIXES_TO_STRIP s = some (String.mk (wsDrop (s.data.drop 3))) := by
  obtain ⟨t, ht⟩ := startsWithL_three (lowerL s.data) 's' 'v' ':' h
  have h1 : startsWithL (lowerL s.data) (lowerL (("re:" : String).data)) = false := by
    rw [ht]; rfl
  have h2 : startsWithL (lowerL s.data) (lowerL (("fwd:" : String).data)) = false := by
    rw [ht]; rfl
  have h3 : startsWithL (lowerL s.data) (lowerL (("fw:" : String).data)) = false := by
    rw [ht]; rfl
  have h4 : startsWithL (lowerL s.data) (lowerL (("aw:" : String).data)) = false := by
    rw [ht]; rfl
  have h5 : startsWithL (lowerL s.data) (lowerL (("vs:" : String).data)) = false := by
    rw [ht]; rfl
  have h6 : startsWithL (lowerL s.data) (lowerL (("sv:" : String).data)) = true := h
  simp [stripOneTag, h1, h2, h3, h4, h5, h6]

theorem stripOneTag_constants_re (s : String)
    (h : startsWithL (lowerL s.data) (("re:" : String).data) = true) :
    stripOneTag PREFIXES_TO_STRIP_CONSTANTS s =
      some (String.mk (wsDrop (s.data.drop 3))) := by
  have h1 : startsWithL (lowerL s.data) (lowerL (("re:" : String).data)) = true := h
  simp [stripOneTag, h1]

theorem stripOneTag_constants_fwd (s : String)
    (h : startsWithL (lowerL s.data) (("fwd:" : String).data) = true) :
    stripOneTag PREFIXES_TO_STRIP_CONSTANTS s =
      some (String.mk (wsDrop (s.data.drop 4))) := by
  obtain ⟨t, ht⟩ := startsWithL_four (lowerL s.data) 'f' 'w' 'd' ':' h
  have h1 : startsWithL (lowerL s.data) (lowerL (("re:" : String).data)) = false := by
    rw [ht]; rfl
  have h2 : startsWithL (lowerL s.data) (lowerL (("fwd:" : String).data)) = true := h
  simp [stripOneTag, h1, h2]

theorem startsWithL_head (L : List Char) (a : Char) (ps : List Char)
    (h : startsWithL L (a :: ps) = true) : ∃ t, L = a :: t := by
  cases L with
  | nil => simp [startsWithL] at h
  | cons x xs =>
    simp [startsWithL] at h
    exact ⟨xs, by rw [h.1]⟩

theorem stripOneTag_constants_grouptag (s : String)
    (h : startsWithL (lowerL s.data) (("[letterboxingtexas]" : String).data) = true) :
    stripOneTag PREFIXES_TO_STRIP_CONSTANTS s =
      some (String.mk (wsDrop (s.data.drop 19))) := by
  obtain ⟨t, ht⟩ := startsWithL_head (lowerL s.data) '[' _ h
  have h1 : startsWithL (lowerL s.data) (lowerL (("re:" : String).data)) = false := by
    rw [ht]; rfl
  have h2 : startsWithL (lowerL s.data) (lowerL (("fwd:" : String).data)) = false := by
    rw [ht]; rfl
  have hconv : lowerL (("[LETTERBOXINGTEXAS]" : String).data) =
      ("[letterboxingtexas]" : String).data := by decide
  have h3 : startsWithL (lowerL s.data)
      (lowerL (("[LETTERBOXINGTEXAS]" : String).data)) = true := by
    rw [hconv]; exact h
  simp [stripOneTag, h1, h2, h3]

/-- C6 (amended): the tags actually stripped are `re:` and `fwd:` (plus
the `[LETTERBOXINGTEXAS]` group tag) on the `BaseMessage`/`constants.py`
path, and `re:`, `fwd:`, `fw:`, `aw:`, `vs:`, `sv:` on the
`message_utils.py` path — for every subject beginning case-insensitively
with one of those tags, the tag-removal step of the loop removes exactly
that tag and then `lstrip`s (for the group tag the bracket substitution
that runs first in each pass also removes it, shown end-to-end); the
numbered-variant entries `"re[\d]*:"`/`"fwd[\d]*:"` are compared
literally and never fire (see the counterexample); chained tags are
removed over successive loop passes. -/
theorem thm_C6_amended :
    (∀ s : String, startsWithL (lowerL s.data) (("re:" : String).data) = true →
      stripOneTag PREFIXES_TO_STRIP s = some (String.mk (wsDrop (s.data.drop 3))))
    ∧ (∀ s : String, startsWithL (lowerL s.data) (("fwd:" : String).data) = true →
      stripOneTag PREFIXES_TO_STRIP s = some (String.mk (wsDrop (s.data.drop 4))))
    ∧ (∀ s : String, startsWithL (lowerL s.data) (("fw:" : String).data) = true →
      stripOneTag PREFIXES_TO_STRIP s = some (String.mk (wsDrop (s.data.drop 3))))
    ∧ (∀ s : String, startsWithL (lowerL s.data) (("aw:" : String).data) = true →
      stripOneTag PREFIXES_TO_STRIP s = some (String.mk (wsDrop (s.data.drop 3))))
    ∧ (∀ s : String, startsWithL (lowerL s.data) (("vs:" : String).data) = true →
      stripOneTag PREFIXES_TO_STRIP s = some (String.mk (wsDrop (s.data.drop 3))))
    ∧ (∀ s : String, startsWithL (lowerL s.data) (("sv:" : String).data) = true →
      stripOneTag PREFIXES_TO_STRIP s = some (String.mk (wsDrop (s.data.drop 3))))
    ∧ (∀ s : String, startsWithL (lowerL s.data) (("re:" : String).data) = true →
      stripOneTag PREFIXES_TO_STRIP_CONSTANTS s =
        some (String.mk (wsDrop (s.data.drop 3))))
    ∧ (∀ s : String, startsWithL (lowerL s.data) (("fwd:" : String).data) = true →
      stripOneTag PREFIXES_TO_STRIP_CONSTANTS s =
        some (String.mk (wsDrop (s.data.drop 4))))
    ∧ (∀ s : String,
        startsWithL (lowerL s.data) (("[letterboxingtexas]" : String).data) = true →
      stripOneTag PREFIXES_TO_STRIP_CONSTANTS s =
        some (String.mk (wsDrop (s.data.drop 19))))
    ∧ BaseMessage_normalize_subject "[LETTERBOXINGTEXAS] Hello" = "Hello"
    ∧ normalize_subject "Re: Fwd: Hello" = "Hello"
    ∧ BaseMessage_normalize_subject "Re: Fwd: Hello" = "Hello"
    ∧ normalize_subject "Sv: Aw: Fw: Vs: Hello" = "Hello" :=
  ⟨stripOneTag_utils_re, stripOneTag_utils_fwd, stripOneTag_utils_fw,
   stripOneTag_utils_aw, stripOneTag_utils_vs, stripOneTag_utils_sv,
   stripOneTag_constants_re, stripOneTag_constants_fwd,
   stripOneTag_constants_grouptag,
   by decide, by decide, by decide, by decide⟩

/-- Witness for C6 at a subject starting with `Re:`. -/
theorem thm_C6_witness :
    startsWithL (lowerL ("Re: x" : String).data) (("re:" : String).data) = true
    ∧ stripOneTag PREFIXES_TO_STRIP "Re: x" =
      some (String.mk (wsDrop (("Re: x" : String).data.drop 3))) :=
  ⟨by decide, thm_C6_amended.1 "Re: x" (by decide)⟩
